import Mathlib

/-!
Verification development for the two source files of this repository:
`vm/src/stdlib/random.rs` (the `_random` module: `PyRng`, `PyRandom` with
`new`, `random`, `seed`, `getrandbits`) and `vm/src/builtins/iter.rs`
(`PySequenceIterator` and `PyCallableIterator`).

Modelling conventions:
* Machine integers are `Nat`/`Int` with explicit reductions modulo `2 ^ 32`
  (`u32`), `2 ^ 64` (`usize`) and the signed range of `isize`.  Rust
  arithmetic is modelled with release-mode semantics: `wrapping_sub`,
  `k -= 32` and `fetch_add` wrap, and a shift of a `u32` by an amount `≥ 32`
  is masked by `amount % 32` (debug builds would panic instead; the panicking
  inputs are noted at the theorems that exercise them).
* The entropy source behind `StdRng::from_entropy` is an explicit parameter
  `entropy : Nat → Nat`, the stream of 32-bit words the entropy-seeded
  generator will emit.  Two independently constructed engines receive two
  unrelated such streams.
* Stateful methods become pure functions returning the result together with
  the updated state.  The `PyMutex`/`AtomicCell` wrappers serialise the
  operations; the model is the sequential semantics of those serialised
  operations.
* External collaborators that are not part of the two source files
  (the `mt19937` crate, `num_bigint`, the VM dispatch used by the iterators)
  are modelled from the spec, each at its marked definition.
-/

/-! ## Random engine: `vm/src/stdlib/random.rs` -/

/-- Modelled from the spec: the deterministic generator of the `mt19937`
crate (`MT19937::new_with_slice_seed` / `RngCore::next_u32`), which is not
under `src/`.  The spec specifies only that it is seeded from a never-empty
sequence of 32-bit key words and thereafter produces a fully reproducible
stream of 32-bit draws, so the state is modelled as the seed key together
with a draw counter, and the i-th draw is the fixed word function below
(a concrete 32-bit mix of the key and the counter). -/
def mtOutput (key : List Nat) (i : Nat) : Nat :=
  (key.foldl (fun a w => (a * 1664525 + w % 2 ^ 32 + 1013904223) % 2 ^ 32) 19650218
    + 69069 * i) % 2 ^ 32

/-- The tagged union `PyRng`: `Std(Box<StdRng>)` is the entropy-seeded
general-purpose generator, modelled as its future word stream plus a cursor;
`MT(Box<mt19937::MT19937>)` is the deterministic generator, modelled as its
seed key plus a draw counter (see `mtOutput`). -/
inductive PyRng where
  | std (stream : Nat → Nat) (pos : Nat)
  | mt (key : List Nat) (idx : Nat)

/-- `RngCore::next_u32` for `PyRng`: dispatch to the active variant; each
draw yields a 32-bit word and advances the generator state. -/
def PyRng.next_u32 : PyRng → Nat × PyRng
  | .std stream pos => (stream pos % 2 ^ 32, .std stream (pos + 1))
  | .mt key idx => (mtOutput key idx, .mt key (idx + 1))

/-- Is the engine in the deterministic (`MT`) variant? -/
def PyRng.isMT : PyRng → Bool
  | .mt _ _ => true
  | .std _ _ => false

/-- The `Random` object: a `PyRng` behind a mutex (the mutex is modelled by
the sequential state threading). -/
structure PyRandom where
  rng : PyRng

/-- `PyRandom::new`: the constructor takes an optional positional argument
`_x` (`OptionalOption<PyObjectRef>`) and ignores it entirely, building
`PyMutex::default()`, i.e. `PyRng::Std(StdRng::from_entropy())`.  The
entropy source is the explicit `entropy` parameter. -/
def PyRandom.new (x : Option (Option Nat)) (entropy : Nat → Nat) : PyRandom :=
  ⟨PyRng.std entropy 0⟩

/-- The little-endian base-`2 ^ 32` digits of a natural number, least
significant word first, with `0` decomposing to the empty list.  Modelled
from the spec: this is `num_bigint`'s `to_u32_digits` magnitude
decomposition (§6: a 32-bit-word decomposition of the magnitude), which is
a pure function of the value and hence host-independent. -/
def toU32Digits (n : Nat) : List Nat :=
  if h : n = 0 then []
  else n % 2 ^ 32 :: toU32Digits (n / 2 ^ 32)
termination_by n
decreasing_by exact Nat.div_lt_self (Nat.pos_of_ne_zero h) (by norm_num)

/-- The key computation of `PyRandom::seed` for an integer argument `n`
(lines 96-101): take the 32-bit digits of `|n|`, reverse them when the host
is big-endian (`cfg!(target_endian = "big")`, the `bigEndian` parameter),
and replace an empty digit list by the single word `0`. -/
def seedKey (bigEndian : Bool) (n : Int) : List Nat :=
  let key := toU32Digits n.natAbs
  let key := if bigEndian then key.reverse else key
  if key = [] then [0] else key

/-- `PyRandom::seed`: no integer (`None` after flattening) reseeds the
general-purpose variant from entropy; an integer `m` replaces the whole
engine state with the deterministic variant seeded from `seedKey`.  The old
state is discarded wholesale. -/
def PyRandom.seed (self : PyRandom) (bigEndian : Bool) (n : Option (Option Int))
    (entropy : Nat → Nat) : PyRandom :=
  match n with
  | some (some m) => ⟨PyRng.mt (seedKey bigEndian m) 0⟩
  | _ => ⟨PyRng.std entropy 0⟩

/-- Modelled from the spec: `mt19937::gen_res53` (not under `src/`), the
canonical double generator of §4.3: two successive 32-bit draws `a`, `b`;
the double is `((a >> 5) * 2 ^ 26 + (b >> 6)) / 2 ^ 53`.  Because the
numerator is an integer below `2 ^ 53` and the divisor is a power of two,
the IEEE double is exact, so the double is represented bit-faithfully by
its 53-bit numerator. -/
def gen_res53 (rng : PyRng) : Nat × PyRng :=
  let p1 := rng.next_u32
  let p2 := p1.2.next_u32
  ((p1.1 >>> 5) * 67108864 + (p2.1 >>> 6), p2.2)

/-- `PyRandom::random`: one `gen_res53` draw on the locked engine. -/
def PyRandom.random (self : PyRandom) : Nat × PyRandom :=
  let p := gen_res53 self.rng
  (p.1, ⟨p.2⟩)

/-- The sequence of `random()` results from repeated draws (each double
represented by its exact 53-bit numerator). -/
def drawFloats : PyRandom → Nat → List Nat
  | _, 0 => []
  | r, n + 1 =>
    let p := r.random
    p.1 :: drawFloats p.2 n

/-- `32usize.wrapping_sub(k)` followed by `as u32`: wrapping subtraction in
the 64-bit `usize`, truncated to 32 bits. -/
def wrapSub32 (k : Nat) : Nat := (2 ^ 64 + 32 - k % 2 ^ 64) % 2 ^ 64 % 2 ^ 32

/-- The `gen_u32` closure of `PyRandom::getrandbits` applied to a drawn word
`w`: `w >> (32usize.wrapping_sub(k) as u32)`.  In release mode Rust masks
the shift amount of a `u32` shift by `% 32`. -/
def gen_u32 (w k : Nat) : Nat := (w % 2 ^ 32) >>> (wrapSub32 k % 32)

/-- The word loop of `PyRandom::getrandbits` (little-endian host order):
each iteration draws a word, masks it with `gen_u32` at the current `k`,
and then performs `k -= 32` as wrapping `usize` subtraction. -/
def getrandbitsLoop (rng : PyRng) (k : Nat) : Nat → List Nat × PyRng
  | 0 => ([], rng)
  | n + 1 =>
    let p := rng.next_u32
    let rest := getrandbitsLoop p.2 ((k + (2 ^ 64 - 32)) % 2 ^ 64) n
    (gen_u32 p.1 k :: rest.1, rest.2)

/-- Modelled from the spec: `num_bigint`'s `BigInt::from_slice` on the word
array (not under `src/`), taken as §4.3 describes the construction —
concatenate the 32-bit words, first word least significant, into the
magnitude of a non-negative arbitrary-precision integer. -/
def fromU32Slice : List Nat → Nat
  | [] => 0
  | w :: ws => w % 2 ^ 32 + 2 ^ 32 * fromU32Slice ws

/-- `PyRandom::getrandbits` (release-mode semantics, little-endian host):
for `k <= 32` one masked draw; otherwise `words = (k - 1) / 8 + 1` loop
iterations assembled by `fromU32Slice`. -/
def PyRandom.getrandbits (self : PyRandom) (k : Nat) : Nat × PyRandom :=
  if k % 2 ^ 64 ≤ 32 then
    let p := self.rng.next_u32
    (gen_u32 p.1 (k % 2 ^ 64), ⟨p.2⟩)
  else
    let words := (k % 2 ^ 64 - 1) / 8 + 1
    let p := getrandbitsLoop self.rng (k % 2 ^ 64) words
    (fromU32Slice p.1, ⟨p.2⟩)

/-- A concrete generator whose every 32-bit draw is `0xFFFFFFFF`. -/
def onesStream : Nat → Nat := fun _ => 4294967295

/-- A `Random` object wrapping the all-ones generator. -/
def onesRandom : PyRandom := ⟨PyRng.std onesStream 0⟩

/-! ## Iterators: `vm/src/builtins/iter.rs` -/

/-- Object references are opaque to the iterators; they are modelled as
identifiers. -/
abbrev PyObject := Nat

/-- Modelled from the spec: the error taxonomy of §7 as seen by the two
iterator types.  `stopIteration` is the exhaustion signal (it carries the
optional payload a nested iterator's signal may hold, so that propagating
it unchanged is observable); `indexError` is any error of the
index-out-of-range kind (`isinstance(index_error)`); `other` is any other
error kind. -/
inductive PyErr where
  | stopIteration (value : Option PyObject)
  | indexError (tag : Nat)
  | other (tag : Nat)
deriving DecidableEq

/-- The `e.isinstance(&vm.ctx.exceptions.index_error)` test. -/
def PyErr.isIndexError : PyErr → Bool
  | .indexError _ => true
  | _ => false

/-- `PySequenceIterator`: the atomically updated cursor (`AtomicCell<isize>`,
a 64-bit signed machine integer), the wrapped subject — modelled by its
`__getitem__` capability of §6, `get_at(index) -> Result<Value, ErrorKind>`
— and the direction flag. -/
structure PySequenceIterator where
  position : Int
  obj : Int → Except PyErr PyObject
  reversed : Bool

/-- Wrap an integer into the 64-bit signed range, the release-mode result
of `isize` wrapping arithmetic (`AtomicCell::fetch_add` wraps on
overflow). -/
def wrap64 (z : Int) : Int :=
  (z + 9223372036854775808) % 18446744073709551616 - 9223372036854775808

/-- `PySequenceIterator::new_forward`: cursor `0`, forward direction. -/
def PySequenceIterator.new_forward (obj : Int → Except PyErr PyObject) :
    PySequenceIterator :=
  ⟨0, obj, false⟩

/-- `PySequenceIterator::new_reversed`: cursor `len - 1` (isize
subtraction), reverse direction. -/
def PySequenceIterator.new_reversed (obj : Int → Except PyErr PyObject)
    (len : Int) : PySequenceIterator :=
  ⟨wrap64 (len - 1), obj, true⟩

/-- `PySequenceIterator::next`: `step = ±1` from the direction;
`fetch_add(step)` returns the pre-increment cursor `pos` and stores the
wrapped sum; a negative `pos` signals exhaustion without any lookup;
otherwise the lookup runs and an error of the index-out-of-range kind is
converted into a fresh `StopIteration` while every other outcome is
returned unchanged. -/
def PySequenceIterator.next (it : PySequenceIterator) :
    Except PyErr PyObject × PySequenceIterator :=
  let step : Int := if it.reversed then -1 else 1
  let pos := it.position
  let it2 : PySequenceIterator := { it with position := wrap64 (pos + step) }
  let res : Except PyErr PyObject :=
    if 0 ≤ pos then
      match it.obj pos with
      | .error e =>
          if e.isIndexError then .error (.stopIteration none)
          else .error e
      | .ok v => .ok v
    else
      .error (.stopIteration none)
  (res, it2)

/-- The iterator state after `t` advances. -/
def seqAdvanceN (it : PySequenceIterator) : Nat → PySequenceIterator
  | 0 => it
  | n + 1 => seqAdvanceN it.next.2 n

/-- The result of the `(t+1)`-st advance (`t` advances already made). -/
def seqResultAt (it : PySequenceIterator) (t : Nat) : Except PyErr PyObject :=
  (seqAdvanceN it t).next.1

/-- The cursor value after `t` wrapping steps of `+1` (forward) or `-1`
(reverse) from `p`. -/
def stepPos (p : Int) (b : Bool) : Nat → Int
  | 0 => p
  | n + 1 => stepPos (wrap64 (p + (if b then -1 else 1))) b n

/-- A lookup outcome of the index-out-of-range kind. -/
def isOOR (r : Except PyErr PyObject) : Prop :=
  ∃ e, r = Except.error e ∧ e.isIndexError = true

/-- The per-advance world of `PyCallableIterator`: the `done` latch together
with the number of times the callable has been invoked so far (the
callable's own mutable state is external, so the result of its i-th
invocation is supplied as a trace `Nat → Except PyErr PyObject`). -/
structure CallItState where
  done : Bool
  calls : Nat
deriving DecidableEq

/-- `PyCallableIterator::next`: if the latch is set, signal exhaustion
without invoking; otherwise invoke the callable once (its result is
`f calls`), propagate an invocation error unchanged, and compare a success
value with the sentinel — on match set the latch and signal exhaustion,
otherwise return the value.  The comparison `beq` is modelled from the
spec: `vm.bool_eq` (not under `src/`) as the value-equality capability
of §6. -/
def callableNext (f : Nat → Except PyErr PyObject) (beq : PyObject → PyObject → Bool)
    (sentinel : PyObject) (s : CallItState) : Except PyErr PyObject × CallItState :=
  if s.done then (Except.error (PyErr.stopIteration none), s)
  else
    match f s.calls with
    | Except.error e => (Except.error e, { s with calls := s.calls + 1 })
    | Except.ok ret =>
        if beq ret sentinel then
          (Except.error (PyErr.stopIteration none), { done := true, calls := s.calls + 1 })
        else
          (Except.ok ret, { s with calls := s.calls + 1 })

/-- The contract of `advance()` written from the spec's words (§4.2): if
`done`, immediately signal exhaustion; else invoke the callable with no
arguments and propagate any error from that invocation unchanged, leaving
`done` false; compare the result to the sentinel by value equality; on a
match set `done = true` and signal exhaustion; otherwise return the
result. -/
def callableNextSpec (f : Nat → Except PyErr PyObject) (beq : PyObject → PyObject → Bool)
    (sentinel : PyObject) (s : CallItState) : Except PyErr PyObject × CallItState :=
  if s.done then (Except.error (PyErr.stopIteration none), s)
  else
    match f s.calls with
    | Except.error e => (Except.error e, ⟨false, s.calls + 1⟩)
    | Except.ok ret =>
        if beq ret sentinel then
          (Except.error (PyErr.stopIteration none), ⟨true, s.calls + 1⟩)
        else
          (Except.ok ret, ⟨false, s.calls + 1⟩)

/-- The callable-iterator world after `n` advances. -/
def callableAdvanceN (f : Nat → Except PyErr PyObject) (beq : PyObject → PyObject → Bool)
    (sentinel : PyObject) : CallItState → Nat → CallItState
  | s, 0 => s
  | s, n + 1 => callableAdvanceN f beq sentinel (callableNext f beq sentinel s).2 n

/-- A concrete subject of length 1: index 0 holds item `7`, every other
index fails with an index-out-of-range error. -/
def cObj : Int → Except PyErr PyObject :=
  fun i => if i = 0 then Except.ok 7 else Except.error (PyErr.indexError 0)

/-- A concrete iterator whose subject raises a nested iterator's
`StopIteration` (with payload `5`) from its lookup. -/
def c6It : PySequenceIterator :=
  ⟨0, fun _ => Except.error (PyErr.stopIteration (some 5)), false⟩

/-! ## Helper lemmas -/

/-- Unfolding equation for `toU32Digits` at a positive argument. -/
theorem toU32Digits_pos (n : Nat) (h : n ≠ 0) :
    toU32Digits n = n % 2 ^ 32 :: toU32Digits (n / 2 ^ 32) := by
  rw [toU32Digits]
  simp [h]

/-- Unfolding equation for `toU32Digits` at zero. -/
theorem toU32Digits_zero : toU32Digits 0 = [] := by
  rw [toU32Digits]
  simp

/-! ## Claim theorems -/

/-- C1: for `k > 32` the claim says `getrandbits` concatenates
`ceil(k / 32)` words, the final one masked to `k mod 32` low bits and all
others full, and that the result lies in `[0, 2^k)`.  The code instead
draws `(k - 1) / 8 + 1` words and masks every word by the wrapped shift,
keeping `k mod 32` bits of each: at `k = 33` with an all-ones generator it
assembles five one-bit words into `1 + 2^32 + 2^64 + 2^96 + 2^128`, which
is not below `2^33`. -/
theorem c1_getrandbits_eval_k33 :
    (onesRandom.getrandbits 33).1 = 1 + 2 ^ 32 + 2 ^ 64 + 2 ^ 96 + 2 ^ 128 ∧
    ¬ (onesRandom.getrandbits 33).1 < 2 ^ 33 := by
  constructor
  · rfl
  · decide

/-- C2: the claim says `getrandbits(k)` performs `ceil(k / 32)` draws for
`k > 32`; the code performs `(k - 1) / 8 + 1` draws.  At `k = 33` the
generator state has advanced by five words, while `ceil(33 / 32) = 2`. -/
theorem c2_getrandbits_draw_count_k33 :
    (onesRandom.getrandbits 33).2 = ⟨PyRng.std onesStream 5⟩ ∧
    (33 + 32 - 1) / 32 = 2 ∧ ¬ (5 = 2) := by
  refine ⟨rfl, by norm_num, by decide⟩

/-- C3: the claim says `draw_bits(0) = 0` with the `k = 0` case safe.  In
release mode the code computes `word >> ((32 - 0) % 32) = word >> 0` and
returns the full 32-bit word (debug builds panic on the shift overflow):
with an all-ones generator the result is `4294967295`, not below `2^0`. -/
theorem c3_getrandbits_k0_eval :
    (onesRandom.getrandbits 0).1 = 4294967295 ∧
    ¬ (onesRandom.getrandbits 0).1 < 2 ^ 0 := by
  constructor
  · rfl
  · decide

/-- C4: `PyRandom::new` ignores its optional seed argument entirely: for
every argument value the construction equals no-argument construction, the
engine is the entropy-seeded general-purpose (`Std`) variant and never the
deterministic (`MT`) one, and only a subsequent `seed` call with an integer
selects the deterministic variant. -/
theorem c4_new_ignores_seed_argument (x : Option (Option Nat)) (e : Nat → Nat) :
    PyRandom.new x e = PyRandom.new none e ∧
    (PyRandom.new x e).rng = PyRng.std e 0 ∧
    (PyRandom.new x e).rng.isMT = false ∧
    (∀ (b : Bool) (m : Int) (e2 : Nat → Nat),
      ((PyRandom.new x e).seed b (some (some m)) e2).rng.isMT = true) ∧
    (∀ (b : Bool) (e2 : Nat → Nat),
      ((PyRandom.new x e).seed b none e2).rng.isMT = false) :=
  ⟨rfl, rfl, rfl, fun _ _ _ => rfl, fun _ _ => rfl⟩

/-- C5: two independently constructed engines (arbitrary constructor
arguments `x1`, `x2` and unrelated entropy streams) that each execute
`seed` with the same integer `s` and then draw `N` doubles via `random()`
produce the identical sequence of doubles (each represented exactly by its
53-bit numerator): seeding discards the entire prior state and the
deterministic variant's draws depend only on the seed key. -/
theorem c5_seeded_draws_reproducible (b : Bool) (s : Int) (N : Nat)
    (x1 x2 : Option (Option Nat)) (e1 e2 e3 e4 : Nat → Nat) :
    drawFloats ((PyRandom.new x1 e1).seed b (some (some s)) e3) N =
    drawFloats ((PyRandom.new x2 e2).seed b (some (some s)) e4) N := rfl

/-- C10: the claim says the key material derived by `seed` is identical in
the big-endian configuration (words reversed) and the little-endian one
(natural order).  At `n = 2^32` the host-independent digit decomposition is
`[0, 1]`, so the big-endian configuration seeds with `[1, 0]` while the
little-endian one seeds with `[0, 1]`: the two configurations derive
different key material. -/
theorem c10_seed_key_endian_eval :
    seedKey true (2 ^ 32) = [1, 0] ∧ seedKey false (2 ^ 32) = [0, 1] ∧
    ¬ seedKey true (2 ^ 32) = seedKey false (2 ^ 32) := by
  have h1 : toU32Digits 4294967296 = [0, 1] := by
    rw [toU32Digits_pos 4294967296 (by norm_num)]
    norm_num
    rw [toU32Digits_pos 1 (by norm_num)]
    norm_num [toU32Digits_zero]
  refine ⟨?_, ?_, ?_⟩
  · simp [seedKey, h1]
  · simp [seedKey, h1]
  · simp [seedKey, h1]

/-- The wrapped value is at least the minimum of the `isize` range. -/
theorem wrap64_lb (z : Int) : -9223372036854775808 ≤ wrap64 z := by
  unfold wrap64
  omega

/-- The wrapped value is below the upper end of the `isize` range. -/
theorem wrap64_ub (z : Int) : wrap64 z < 9223372036854775808 := by
  unfold wrap64
  omega

/-- Wrapping is the identity on the `isize` range. -/
theorem wrap64_eq_self (z : Int) (h1 : -9223372036854775808 ≤ z)
    (h2 : z < 9223372036854775808) : wrap64 z = z := by
  unfold wrap64
  omega

/-- Wrapping before a further addition does not change the wrapped sum. -/
theorem wrap64_wrap64_add (x s : Int) : wrap64 (wrap64 x + s) = wrap64 (x + s) := by
  unfold wrap64
  omega

/-- Advancing only moves the cursor: after `t` advances the iterator is the
same subject and direction with the cursor stepped `t` times. -/
theorem seqAdvanceN_mk (f : Int → Except PyErr PyObject) (b : Bool) (p : Int)
    (t : Nat) : seqAdvanceN ⟨p, f, b⟩ t = ⟨stepPos p b t, f, b⟩ := by
  induction t generalizing p with
  | zero => rfl
  | succ n ih =>
      rw [seqAdvanceN, stepPos]
      exact ih (wrap64 (p + if b then -1 else 1))

/-- The stepped cursor is the wrap of the start plus `t` signed unit
steps, provided the start lies in the `isize` range. -/
theorem stepPos_eq (b : Bool) (t : Nat) (p : Int)
    (h1 : -9223372036854775808 ≤ p) (h2 : p < 9223372036854775808) :
    stepPos p b t = wrap64 (p + (if b then -1 else 1) * t) := by
  induction t generalizing p with
  | zero =>
      rw [stepPos]
      simp [wrap64_eq_self p h1 h2]
  | succ n ih =>
      rw [stepPos, ih (wrap64 (p + if b then -1 else 1)) (wrap64_lb _) (wrap64_ub _),
        wrap64_wrap64_add]
      congr 1
      push_cast
      ring

/-- The advance result consults the subject only at the nonnegative cursor
value of that advance: subjects agreeing on all nonnegative indices give
identical results at every advance. -/
theorem seqResultAt_congr_nonneg (p : Int) (b : Bool)
    (f g : Int → Except PyErr PyObject) (h : ∀ i, 0 ≤ i → f i = g i) (t : Nat) :
    seqResultAt ⟨p, f, b⟩ t = seqResultAt ⟨p, g, b⟩ t := by
  rw [seqResultAt, seqResultAt, seqAdvanceN_mk, seqAdvanceN_mk]
  by_cases h0 : 0 ≤ stepPos p b t
  · simp [PySequenceIterator.next, h0, h _ h0]
  · simp [PySequenceIterator.next, h0]

/-- C6: on an advance that performs a lookup (nonnegative pre-increment
cursor), a lookup error of the index-out-of-range kind is converted into
the fresh exhaustion signal, any other error — including a nested
iterator's own exhaustion signal, payload and all — propagates unchanged,
and a successful lookup value is returned unchanged. -/
theorem c6_lookup_error_conversion (it : PySequenceIterator)
    (h0 : 0 ≤ it.position) :
    (∀ e, it.obj it.position = Except.error e → e.isIndexError = true →
      it.next.1 = Except.error (PyErr.stopIteration none)) ∧
    (∀ e, it.obj it.position = Except.error e → e.isIndexError = false →
      it.next.1 = Except.error e) ∧
    (∀ v, it.obj it.position = Except.ok v → it.next.1 = Except.ok v) := by
  refine ⟨?_, ?_, ?_⟩
  · intro x hx hidx
    simp [PySequenceIterator.next, h0, hx, hidx]
  · intro x hx hidx
    simp [PySequenceIterator.next, h0, hx, hidx]
  · intro x hx
    simp [PySequenceIterator.next, h0, hx]

/-- Witness for C6 at a concrete iterator: the subject's lookup raises a
nested `StopIteration` carrying payload `5`, which is not an index error,
and the advance propagates it unchanged rather than swallowing it. -/
theorem c6_lookup_error_conversion_witness :
    c6It.next.1 = Except.error (PyErr.stopIteration (some 5)) :=
  (c6_lookup_error_conversion c6It (by decide)).2.1
    (PyErr.stopIteration (some 5)) rfl rfl

/-- C9 (amended): a Forward iterator over a subject succeeding exactly on
`0..N-1` and failing with the index-out-of-range kind elsewhere yields the
items at positions `0, 1, ..., N-1` in order and then signals exhaustion on
every subsequent advance among the first `2^64` advances; the bound is
forced by the wrapping `isize` cursor (see the counterexample), not by the
iteration logic. -/
theorem c9_forward_schedule_amended (obj : Int → Except PyErr PyObject)
    (item : Int → PyObject) (N : Nat)
    (hN : (N : Int) < 9223372036854775808)
    (hin : ∀ i : Int, 0 ≤ i → i < (N : Int) → obj i = Except.ok (item i))
    (hout : ∀ i : Int, i < 0 ∨ (N : Int) ≤ i → isOOR (obj i)) :
    ∀ t : Nat, t < 2 ^ 64 →
      seqResultAt (PySequenceIterator.new_forward obj) t =
        if t < N then Except.ok (item (t : Int))
        else Except.error (PyErr.stopIteration none) := by
  intro t ht
  have ht64 : (t : Int) < 18446744073709551616 := by
    rw [show (2 : Nat) ^ 64 = 18446744073709551616 from by norm_num] at ht
    exact_mod_cast ht
  rw [show PySequenceIterator.new_forward obj = ⟨0, obj, false⟩ from rfl,
    seqResultAt, seqAdvanceN_mk, stepPos_eq false t 0 (by norm_num) (by norm_num)]
  simp only [show (if false then (-1 : Int) else 1) = 1 from rfl, zero_add, one_mul]
  by_cases h63 : (t : Int) < 9223372036854775808
  · have hw : wrap64 (t : Int) = (t : Int) :=
      wrap64_eq_self _ (by omega) h63
    by_cases htN : t < N
    · have hobj := hin (t : Int) (Int.natCast_nonneg t) (by exact_mod_cast htN)
      simp [PySequenceIterator.next, hw, hobj, htN, Int.natCast_nonneg]
    · obtain ⟨e, he, hidx⟩ :=
        hout (t : Int) (Or.inr (by exact_mod_cast Nat.le_of_not_lt htN))
      simp [PySequenceIterator.next, hw, he, hidx, htN, Int.natCast_nonneg]
  · have hw : wrap64 (t : Int) = (t : Int) - 18446744073709551616 := by
      unfold wrap64
      omega
    have hneg : ¬ (0 ≤ wrap64 (t : Int)) := by
      rw [hw]
      omega
    have htN : ¬ t < N := by
      intro hc
      have hc2 : (t : Int) < (N : Int) := by exact_mod_cast hc
      omega
    simp [PySequenceIterator.next, hneg, htN]

/-- C9 counterexample: the claim as stated promises exhaustion on every
advance after the subject is drained, over the unbounded advance sequence.
With the length-1 subject `cObj` the second advance does signal exhaustion,
but the cursor — a wrapping 64-bit machine integer — returns to `0` after
exactly `2^64` advances, and the advance after that yields item `7`
again. -/
theorem c9_forward_wrap_counterexample :
    seqResultAt (PySequenceIterator.new_forward cObj) 1 =
      Except.error (PyErr.stopIteration none) ∧
    seqResultAt (PySequenceIterator.new_forward cObj) (2 ^ 64) = Except.ok 7 := by
  constructor
  · rfl
  · rw [show PySequenceIterator.new_forward cObj = ⟨0, cObj, false⟩ from rfl,
      seqResultAt, seqAdvanceN_mk,
      stepPos_eq false (2 ^ 64) 0 (by norm_num) (by norm_num)]
    rw [show (0 + (if false then (-1 : Int) else 1) * ((2 ^ 64 : Nat) : Int))
        = 18446744073709551616 from by norm_num]
    rw [show wrap64 18446744073709551616 = 0 from by decide]
    rfl

/-- Witness for the amended C9 at the concrete length-1 subject: the first
advance yields item `7`. -/
theorem c9_forward_schedule_witness :
    seqResultAt (PySequenceIterator.new_forward cObj) 0 = Except.ok 7 := by
  have h := c9_forward_schedule_amended cObj (fun _ => 7) 1 (by norm_num)
    (fun i h0 h1 => by
      have hi : i = 0 := by omega
      simp [cObj, hi])
    (fun i hi => by
      have hne : i ≠ 0 := by
        rcases hi with h | h
        · omega
        · simp only [Nat.cast_one] at h
          omega
      exact ⟨PyErr.indexError 0, by simp [cObj, hne], rfl⟩)
    0 (by norm_num)
  simpa using h

/-- C8 (amended): a Reverse iterator built with `len = N` over a subject
succeeding exactly on `0..N-1` and failing with the index-out-of-range kind
elsewhere yields the items at positions `N-1` down to `0` in order and then
signals exhaustion on every subsequent advance among the first `2^64`
advances (the bound is forced by the wrapping `isize` cursor, see the
counterexample); moreover it never issues a lookup at a negative index:
its behaviour is unchanged under any modification of the subject at
negative indices — in particular for `N = 0` the very first advance
signals exhaustion without any lookup. -/
theorem c8_reverse_schedule_amended (obj : Int → Except PyErr PyObject)
    (item : Int → PyObject) (N : Nat)
    (hN : (N : Int) < 9223372036854775808)
    (hin : ∀ i : Int, 0 ≤ i → i < (N : Int) → obj i = Except.ok (item i))
    (hout : ∀ i : Int, i < 0 ∨ (N : Int) ≤ i → isOOR (obj i)) :
    (∀ t : Nat, t < 2 ^ 64 →
      seqResultAt (PySequenceIterator.new_reversed obj (N : Int)) t =
        if t < N then Except.ok (item ((N : Int) - 1 - (t : Int)))
        else Except.error (PyErr.stopIteration none)) ∧
    (∀ (g : Int → Except PyErr PyObject), (∀ i, 0 ≤ i → g i = obj i) →
      ∀ t : Nat,
        seqResultAt (PySequenceIterator.new_reversed g (N : Int)) t =
        seqResultAt (PySequenceIterator.new_reversed obj (N : Int)) t) := by
  constructor
  · intro t ht
    have ht64 : (t : Int) < 18446744073709551616 := by
      rw [show (2 : Nat) ^ 64 = 18446744073709551616 from by norm_num] at ht
      exact_mod_cast ht
    have hp : wrap64 ((N : Int) - 1) = (N : Int) - 1 :=
      wrap64_eq_self _ (by omega) (by omega)
    have hmk : PySequenceIterator.new_reversed obj (N : Int) =
        ⟨(N : Int) - 1, obj, true⟩ := by
      unfold PySequenceIterator.new_reversed
      rw [hp]
    rw [hmk, seqResultAt, seqAdvanceN_mk,
      stepPos_eq true t ((N : Int) - 1) (by omega) (by omega)]
    rw [show ((N : Int) - 1 + (if true then (-1 : Int) else 1) * (t : Int))
        = (N : Int) - 1 - (t : Int) from by simp [sub_eq_add_neg]]
    by_cases htN : t < N
    · have htN2 : (t : Int) < (N : Int) := by exact_mod_cast htN
      have hw : wrap64 ((N : Int) - 1 - (t : Int)) = (N : Int) - 1 - (t : Int) :=
        wrap64_eq_self _ (by omega) (by omega)
      have hge : (0 : Int) ≤ (N : Int) - 1 - (t : Int) := by omega
      have hobj := hin ((N : Int) - 1 - (t : Int)) hge (by omega)
      simp [PySequenceIterator.next, hw, hge, hobj, htN]
    · have htN2 : (N : Int) ≤ (t : Int) := by exact_mod_cast Nat.le_of_not_lt htN
      by_cases hmid : -9223372036854775808 ≤ (N : Int) - 1 - (t : Int)
      · have hw : wrap64 ((N : Int) - 1 - (t : Int)) = (N : Int) - 1 - (t : Int) :=
          wrap64_eq_self _ hmid (by omega)
        have hneg : ¬ (0 : Int) ≤ (N : Int) - 1 - (t : Int) := by omega
        simp [PySequenceIterator.next, hw, hneg, htN]
      · have hw : wrap64 ((N : Int) - 1 - (t : Int)) =
            (N : Int) - 1 - (t : Int) + 18446744073709551616 := by
          unfold wrap64
          omega
        have hge : (0 : Int) ≤ (N : Int) - 1 - (t : Int) + 18446744073709551616 := by
          omega
        obtain ⟨e, he, hidx⟩ := hout ((N : Int) - 1 - (t : Int) + 18446744073709551616)
          (Or.inr (by omega))
        simp [PySequenceIterator.next, hw, hge, he, hidx, htN]
  · intro g hg t
    exact seqResultAt_congr_nonneg (wrap64 ((N : Int) - 1)) true g obj hg t

/-- C8 counterexample: with the length-1 subject `cObj` and `len = 1`, the
second advance does signal exhaustion, but the wrapping 64-bit cursor
passes below the `isize` minimum, re-enters the nonnegative range, and
after exactly `2^64` advances returns to `0`, so the advance after that
yields item `7` again — refuting exhaustion on every subsequent advance. -/
theorem c8_reverse_wrap_counterexample :
    seqResultAt (PySequenceIterator.new_reversed cObj 1) 1 =
      Except.error (PyErr.stopIteration none) ∧
    seqResultAt (PySequenceIterator.new_reversed cObj 1) (2 ^ 64) = Except.ok 7 := by
  constructor
  · rfl
  · have hmk : PySequenceIterator.new_reversed cObj 1 = ⟨0, cObj, true⟩ := by
      unfold PySequenceIterator.new_reversed
      rw [show wrap64 (1 - 1) = 0 from by decide]
    rw [hmk, seqResultAt, seqAdvanceN_mk,
      stepPos_eq true (2 ^ 64) 0 (by norm_num) (by norm_num)]
    rw [show (0 + (if true then (-1 : Int) else 1) * ((2 ^ 64 : Nat) : Int))
        = -18446744073709551616 from by norm_num]
    rw [show wrap64 (-18446744073709551616) = 0 from by decide]
    rfl

/-- Witness for the amended C8 at the concrete length-1 subject: the first
advance yields item `7` (position 0), the second signals exhaustion. -/
theorem c8_reverse_schedule_witness :
    seqResultAt (PySequenceIterator.new_reversed cObj 1) 0 = Except.ok 7 := by
  have h := (c8_reverse_schedule_amended cObj (fun _ => 7) 1 (by norm_num)
    (fun i h0 h1 => by
      have hi : i = 0 := by
        simp only [Nat.cast_one] at h1
        omega
      simp [cObj, hi])
    (fun i hi => by
      have hne : i ≠ 0 := by
        rcases hi with h | h
        · omega
        · simp only [Nat.cast_one] at h
          omega
      exact ⟨PyErr.indexError 0, by simp [cObj, hne], rfl⟩)).1
    0 (by norm_num)
  simpa using h

/-- C7: the callable iterator's advance satisfies its full contract — with
the latch set it signals exhaustion without invoking the callable and
leaves the state untouched; otherwise it invokes the callable exactly once,
propagates an invocation error unchanged with the latch still clear, sets
the latch and signals exhaustion when the result equals the sentinel, and
returns the result otherwise (`callableNextSpec` is that contract written
from the spec's words); and the latch is permanent — after any number of
further advances the state is unchanged, the callable is never invoked
again, and every advance signals exhaustion. -/
theorem c7_callable_iterator_contract (f : Nat → Except PyErr PyObject)
    (beq : PyObject → PyObject → Bool) (sentinel : PyObject) :
    (∀ s, callableNext f beq sentinel s = callableNextSpec f beq sentinel s) ∧
    (∀ c n, callableAdvanceN f beq sentinel ⟨true, c⟩ n = ⟨true, c⟩) ∧
    (∀ c n, (callableNext f beq sentinel
        (callableAdvanceN f beq sentinel ⟨true, c⟩ n)).1 =
      Except.error (PyErr.stopIteration none)) := by
  have hlatch : ∀ c n, callableAdvanceN f beq sentinel ⟨true, c⟩ n = ⟨true, c⟩ := by
    intro c n
    induction n generalizing c with
    | zero => rfl
    | succ m ih =>
        rw [callableAdvanceN]
        exact ih c
  refine ⟨?_, hlatch, fun c n => by rw [hlatch c n]; rfl⟩
  intro s
  obtain ⟨d, c⟩ := s
  cases d
  · unfold callableNext callableNextSpec
    cases hf : f c
    · simp [hf]
    · simp [hf]
  · rfl
